import Mathlib

/-!
Verification of the preload & playback-buffer management subsystem of the
reddit-viewer application (modules `ui.js`, `state.js`, `media.js`,
`controls.js`, `app.js`).

The JavaScript state lives in a single store (`state.js`) holding, among
other keys, the preload element cache `preloadedVideos`
(a `Map` from slide index to `{ element, url, timestamp }`), the URL
resolution cache `preloadedVideoUrls` (a `Map` from external video id to
resolved URL), the in-flight set `preloadingInProgress` (a `Set` of ids),
and the flag `preloadingPaused`.  All mutation happens on the single
event-loop thread, so each JavaScript function is embedded as a pure
state-transformer.  JavaScript `Map`s are embedded as association lists in
insertion order with the first-match lookup of `Map.get`; `Set`s as lists
with membership-guarded insertion.  DOM video elements are abstracted to
the fields the subsystem reads and writes: a `paused` flag and a counter
of start-then-pause "nudges" (`element.play().then(() => element.pause())`).

`config.js` is referenced by every module but is not part of the sources,
so the numeric constants under `CONFIG.preloading` are kept as parameters
of a `Config` structure; all theorems are universally quantified over them.
-/

/-- An entry of the `preloadedVideos` cache: embeds the object
`{ element, url, timestamp }` stored by `preloadVideoElement`.  The owned
`<video>` element is abstracted to its `paused` flag and a counter of
play-then-pause nudges issued against it. -/
structure CacheEntry where
  url : String
  paused : Bool
  nudges : Nat
  timestamp : Nat
  deriving Repr, DecidableEq

/-- The `preloadedVideos` JavaScript `Map`, as an association list in
insertion order (slide index to cache entry). -/
abbrev VideoCache := List (Nat × CacheEntry)

/-- `Map.get`: first entry with the given key (keys are unique in a
JavaScript `Map`, so first-match is exact). -/
def cacheGet : VideoCache → Nat → Option CacheEntry
  | [], _ => none
  | p :: rest, k => if p.1 = k then some p.2 else cacheGet rest k

/-- `Map.has`. -/
def cacheHas (c : VideoCache) (k : Nat) : Bool :=
  (cacheGet c k).isSome

/-- `Map.set`: replace the entry in place if the key exists, otherwise
append (JavaScript `Map`s keep insertion order, new keys go last). -/
def cacheSet : VideoCache → Nat → CacheEntry → VideoCache
  | [], k, v => [(k, v)]
  | p :: rest, k, v => if p.1 = k then (k, v) :: rest else p :: cacheSet rest k v

/-- `Map.delete`. -/
def cacheDelete : VideoCache → Nat → VideoCache
  | [], _ => []
  | p :: rest, k => if p.1 = k then rest else p :: cacheDelete rest k

/-- `Map.size`. -/
def cacheSize (c : VideoCache) : Nat := c.length

/-- The constants of `CONFIG.preloading` (and the proxy switch used by
`fetchExternalVideoUrl`).  `config.js` is not among the sources, so the
values stay abstract. -/
structure Config where
  MAX_CACHED_VIDEOS : Nat
  CLEANUP_THRESHOLD : Nat
  MIN_BUFFER_SECONDS : ℚ
  HEALTHY_BUFFER_SECONDS : ℚ
  VIDEO_PRELOAD_COUNT : Nat
  URL_PRELOAD_COUNT : Nat
  proxyEnabled : Bool

/-- The slice of the store's state read and written by the preload element
cache and the buffer health monitor (`preloadedVideos`,
`preloadingPaused`, `currentIndex`). -/
structure PreloadState where
  preloadedVideos : VideoCache
  preloadingPaused : Bool
  currentIndex : Nat
  deriving Repr, DecidableEq

/-- The empty initial subsystem state (no cached videos, preloading not
paused, position 0). -/
def initialPreloadState : PreloadState :=
  { preloadedVideos := [], preloadingPaused := false, currentIndex := 0 }

/-- `getBufferHealth` (ui.js): walk the buffered time ranges in order and
return `end − currentTime` for the first range containing the current
playback position, else 0.  Times are rationals standing for the
floating-point seconds read off the media element. -/
def getBufferHealth (buffered : List (ℚ × ℚ)) (currentTime : ℚ) : ℚ :=
  match buffered.find? (fun r => decide (r.1 ≤ currentTime) && decide (currentTime ≤ r.2)) with
  | some r => r.2 - currentTime
  | none => 0

/-- The per-entry effect of `pauseAllPreloads`: elements that are not
paused get `element.pause()`; already-paused elements are untouched. -/
def pauseEntry (e : CacheEntry) : CacheEntry :=
  if e.paused then e else { e with paused := true }

/-- `pauseAllPreloads` (ui.js): if `preloadingPaused` is already set this
is a no-op; otherwise every cached element that is playing is paused and
the flag is raised. -/
def pauseAllPreloads (st : PreloadState) : PreloadState :=
  if st.preloadingPaused then st
  else
    { st with
      preloadedVideos := st.preloadedVideos.map (fun p => (p.1, pauseEntry p.2)),
      preloadingPaused := true }

/-- The play-then-pause nudge
(`element.play().then(() => element.pause())`): one more nudge is
recorded and the element ends paused. -/
def nudgeEntry (e : CacheEntry) : CacheEntry :=
  { e with nudges := e.nudges + 1, paused := true }

/-- `resumePreloads` (ui.js): no-op unless `preloadingPaused` is set;
otherwise clear the flag and nudge only the cache entry at
`currentIndex + 1`, if present. -/
def resumePreloads (st : PreloadState) : PreloadState :=
  if st.preloadingPaused then
    { st with
      preloadingPaused := false,
      preloadedVideos := st.preloadedVideos.map
        (fun p => (p.1, if p.1 = st.currentIndex + 1 then nudgeEntry p.2 else p.2)) }
  else st

/-- The body of `checkBuffer` inside `startBufferMonitoring` (ui.js), for
one sampling tick whose active video has buffered-ahead duration
`health`: pause everything when the buffer drops below
`MIN_BUFFER_SECONDS` while running, resume when it exceeds
`HEALTHY_BUFFER_SECONDS` while paused. -/
def checkBuffer (cfg : Config) (st : PreloadState) (health : ℚ) : PreloadState :=
  if health < cfg.MIN_BUFFER_SECONDS ∧ st.preloadingPaused = false then
    pauseAllPreloads st
  else if cfg.HEALTHY_BUFFER_SECONDS < health ∧ st.preloadingPaused = true then
    resumePreloads st
  else st

/-- The entry `preloadVideoElement` stores for slide `slideIndex`: a fresh
off-screen metadata-preloading element (paused), nudged once if the slide
is exactly the next one after `currentIndex`. -/
def mkPreloadEntry (st : PreloadState) (slideIndex : Nat) (videoUrl : String)
    (now : Nat) : CacheEntry :=
  { url := videoUrl
    paused := true
    nudges := if slideIndex = st.currentIndex + 1 then 1 else 0
    timestamp := now }

/-- `preloadVideoElement` (ui.js): refuse (returning without creating an
element) if the slide is already cached, the cache is at capacity, or
preloading is paused; otherwise create the element and store one new
entry.  The returned Bool reports whether an element was created. -/
def preloadVideoElement (cfg : Config) (st : PreloadState) (slideIndex : Nat)
    (videoUrl : String) (now : Nat) : PreloadState × Bool :=
  if cacheHas st.preloadedVideos slideIndex then (st, false)
  else if cfg.MAX_CACHED_VIDEOS ≤ cacheSize st.preloadedVideos then (st, false)
  else if st.preloadingPaused then (st, false)
  else
    ({ st with
        preloadedVideos :=
          cacheSet st.preloadedVideos slideIndex (mkPreloadEntry st slideIndex videoUrl now) },
      true)

/-- `getPreloadedVideo` (ui.js): remove and hand out the cached element
for a slide, or return none. -/
def getPreloadedVideo (st : PreloadState) (slideIndex : Nat) :
    PreloadState × Option CacheEntry :=
  match cacheGet st.preloadedVideos slideIndex with
  | some cached =>
      ({ st with preloadedVideos := cacheDelete st.preloadedVideos slideIndex }, some cached)
  | none => (st, none)

/-- `cleanupOldPreloads` (ui.js): destroy and drop every cached entry
whose slide index is below `currentIndex - CLEANUP_THRESHOLD`
(the comparison is on JavaScript numbers, hence over ℤ). -/
def cleanupOldPreloads (cfg : Config) (st : PreloadState) (currentIndex : Nat) :
    PreloadState :=
  { st with
    preloadedVideos := st.preloadedVideos.filter
      (fun p => !decide ((p.1 : ℤ) < (currentIndex : ℤ) - (cfg.CLEANUP_THRESHOLD : ℤ))) }

/-- The bounds-checked index update of `navigate` (controls.js):
`newIdx = currentIndex + direction`, kept only when `0 ≤ newIdx < len`. -/
def navigateIndex (currentIndex : Nat) (len : Nat) (direction : ℤ) : Nat :=
  let newIdx : ℤ := (currentIndex : ℤ) + direction
  if newIdx < 0 ∨ (len : ℤ) ≤ newIdx then currentIndex else newIdx.toNat

/-- The effect of `navigate` (controls.js) on the preload subsystem state:
no-op when the target index is out of bounds, otherwise
`setState({ currentIndex: newIdx, preloadingPaused: false })` followed by
`cleanupOldPreloads(newIdx)`.  (The DOM re-render and the asynchronous
preload scheduling that `navigate` also triggers appear as separate
operations of the machine below.) -/
def navigateStep (cfg : Config) (st : PreloadState) (len : Nat) (d : ℤ) :
    PreloadState :=
  let newIdx : ℤ := (st.currentIndex : ℤ) + d
  if newIdx < 0 ∨ (len : ℤ) ≤ newIdx then st
  else
    cleanupOldPreloads cfg
      { st with currentIndex := newIdx.toNat, preloadingPaused := false }
      newIdx.toNat

/-- The operations that touch the `preloadedVideos` cache: element
preloading, claiming by the renderer, eviction, navigation, the error
listener installed on each preloaded element (which deletes its entry),
and a buffer-monitor tick. -/
inductive PreloadOp where
  | preload (slideIndex : Nat) (url : String) (now : Nat)
  | take (slideIndex : Nat)
  | cleanup (currentIndex : Nat)
  | nav (len : Nat) (d : ℤ)
  | videoError (slideIndex : Nat)
  | check (health : ℚ)

/-- One step of the preload subsystem. -/
def stepOp (cfg : Config) (st : PreloadState) : PreloadOp → PreloadState
  | .preload i u now => (preloadVideoElement cfg st i u now).1
  | .take i => (getPreloadedVideo st i).1
  | .cleanup c => cleanupOldPreloads cfg st c
  | .nav len d => navigateStep cfg st len d
  | .videoError i => { st with preloadedVideos := cacheDelete st.preloadedVideos i }
  | .check h => checkBuffer cfg st h

/-- Run a sequence of operations from the empty initial state. -/
def runOps (cfg : Config) (ops : List PreloadOp) : PreloadState :=
  ops.foldl (stepOp cfg) initialPreloadState

/-- A slide record as produced by the media extraction pipeline
(media.js), restricted to the fields the preload layers read. -/
structure Slide where
  type : String
  url : Option String
  needsResolve : Bool
  externalVideoId : Option String
  deriving Repr, DecidableEq

/-- The `preloadedVideoUrls` JavaScript `Map` (external video id to
resolved URL), as an association list. -/
abbrev UrlCache := List (String × String)

/-- `Map.get` on the URL resolution cache. -/
def urlCacheGet : UrlCache → String → Option String
  | [], _ => none
  | p :: rest, id => if p.1 = id then some p.2 else urlCacheGet rest id

/-- `Map.set` on the URL resolution cache. -/
def urlCacheSet : UrlCache → String → String → UrlCache
  | [], id, u => [(id, u)]
  | p :: rest, id, u => if p.1 = id then (id, u) :: rest else p :: urlCacheSet rest id u

/-- `Set.add` on the in-flight id set: membership-guarded insertion. -/
def setAdd (s : List String) (x : String) : List String :=
  if x ∈ s then s else x :: s

/-- The slice of the store's state owned by the URL resolution layer,
plus an observation history: `activeCalls` records one entry per
`fetchExternalVideoUrl` network call currently outstanding (issued and
not yet completed). -/
structure ResolveState where
  preloadedVideoUrls : UrlCache
  preloadingInProgress : List String
  activeCalls : List String
  deriving Repr, DecidableEq

/-- The empty resolution state. -/
def initialResolveState : ResolveState :=
  { preloadedVideoUrls := [], preloadingInProgress := [], activeCalls := [] }

/-- `getPreloadedVideoUrl` (media.js): synchronous cache lookup,
`preloadedVideoUrls.get(videoId) || null`. -/
def getPreloadedVideoUrl (rs : ResolveState) (videoId : String) : Option String :=
  urlCacheGet rs.preloadedVideoUrls videoId

/-- One iteration of the loop in `preloadExternalVideoUrls` (media.js)
for a single slide: skip unless the slide needs resolution; skip if the
id is already cached or already in flight; otherwise mark it in flight
and issue the background `fetchExternalVideoUrl` call. -/
def orchAttempt (rs : ResolveState) (slide : Slide) : ResolveState :=
  if !slide.needsResolve then rs
  else
    match slide.externalVideoId with
    | none => rs
    | some videoId =>
        if (urlCacheGet rs.preloadedVideoUrls videoId).isSome
            ∨ videoId ∈ rs.preloadingInProgress then rs
        else
          { rs with
            preloadingInProgress := setAdd rs.preloadingInProgress videoId,
            activeCalls := videoId :: rs.activeCalls }

/-- `preloadExternalVideoUrls` (media.js): attempt resolution for the
window of `count` slides starting at `startIndex` (the source loop breaks
at the end of the slide list; since indices increase, skipping
out-of-range indices is the same function). -/
def preloadExternalVideoUrls (slides : List Slide) (startIndex count : Nat)
    (rs : ResolveState) : ResolveState :=
  (List.range count).foldl
    (fun acc i =>
      match slides[startIndex + i]? with
      | none => acc
      | some slide => orchAttempt acc slide)
    rs

/-- Completion of one outstanding `fetchExternalVideoUrl` call for `id`:
on success the URL is cached; in every case the id is removed from the
in-flight set (both the orchestrator's `.then`/`.catch` and the renderer's
callback do this) and the call is no longer outstanding. -/
def resolutionComplete (rs : ResolveState) (id : String) (url : Option String) :
    ResolveState :=
  { rs with
    preloadedVideoUrls :=
      match url with
      | some u => urlCacheSet rs.preloadedVideoUrls id u
      | none => rs.preloadedVideoUrls,
    preloadingInProgress := rs.preloadingInProgress.erase id,
    activeCalls := rs.activeCalls.erase id }

/-- The URL-resolution decision of `createSlideElement` (ui.js) for a
slide with `needsResolve` and external id `videoId`: on a cache hit the
cached URL becomes the video source immediately and no network call is
made; on a miss the id is added to `preloadingInProgress` and a
`fetchExternalVideoUrl` network call is issued.  Returns the new state,
the source URL taken from the cache (if any), and whether a network call
was issued. -/
def rendererResolveAttempt (rs : ResolveState) (videoId : String) :
    ResolveState × Option String × Bool :=
  match getPreloadedVideoUrl rs videoId with
  | some preloadedUrl => (rs, some preloadedUrl, false)
  | none =>
      ({ rs with
          preloadingInProgress := setAdd rs.preloadingInProgress videoId,
          activeCalls := videoId :: rs.activeCalls },
        none, true)

/-- The module-level token cache of media.js
(`externalVideoToken`, `externalVideoTokenExpiry`). -/
structure TokenState where
  externalVideoToken : Option String
  externalVideoTokenExpiry : Nat
  deriving Repr, DecidableEq

/-- The responses the external provider's API would give: the token from
the auth endpoint and, per id, the `urls.hd || urls.sd` video URL. -/
structure NetOracle where
  authToken : Option String
  gifUrls : String → Option String

/-- `getExternalVideoToken` (media.js): return the cached token while it
is valid, otherwise call the auth endpoint (one network call), caching a
received token for an hour.  The Nat counts network calls made. -/
def getExternalVideoToken (ts : TokenState) (now : Nat) (net : NetOracle) :
    TokenState × Option String × Nat :=
  if ts.externalVideoToken.isSome ∧ now < ts.externalVideoTokenExpiry then
    (ts, ts.externalVideoToken, 0)
  else
    match net.authToken with
    | some tok =>
        ({ externalVideoToken := some tok,
           externalVideoTokenExpiry := now + 60 * 60 * 1000 }, some tok, 1)
    | none => (ts, none, 1)

/-- `fetchExternalVideoUrl` (media.js): obtain a token, then call the
provider's `gifs/{id}` endpoint (a second network call) and return
`urls.hd || urls.sd`, proxied when the worker proxy is enabled.  The
function takes no cache argument: it never consults
`preloadedVideoUrls`.  The Nat counts network calls made. -/
def fetchExternalVideoUrl (cfg : Config) (proxyWrap : String → String)
    (ts : TokenState) (now : Nat) (net : NetOracle) (id : String) :
    TokenState × Option String × Nat :=
  match getExternalVideoToken ts now net with
  | (ts1, none, calls) => (ts1, none, calls)
  | (ts1, some _, calls) =>
      let videoUrl := net.gifUrls id.toLower
      match videoUrl with
      | some u =>
          (ts1, some (if cfg.proxyEnabled then proxyWrap u else u), calls + 1)
      | none => (ts1, none, calls + 1)

/-- The slice of the store's state touched by `loadSubreddit` (app.js)
and `stateHelpers.resetForNewLoad` (state.js), together with the three
preload caches and the pause flag named by the specification's
`resetForNewFeed()`. -/
structure SessionState where
  subreddit : String
  slides : List Slide
  currentIndex : Nat
  after : Option String
  loading : Bool
  preloadedImages : List String
  preloadedVideoUrls : UrlCache
  preloadingInProgress : List String
  preloadedVideos : VideoCache
  preloadingPaused : Bool
  deriving Repr, DecidableEq

/-- `stateHelpers.resetForNewLoad` (state.js):
`setState({ slides: [], currentIndex: 0, after: null, loading: true })`
followed by `preloadedImages.clear()`.  No other key is touched. -/
def resetForNewLoad (st : SessionState) : SessionState :=
  { st with
    slides := []
    currentIndex := 0
    after := none
    loading := true
    preloadedImages := [] }

/-- The state reset performed at the top of `loadSubreddit` (app.js):
`setState({ subreddit, slides: [], currentIndex: 0, after: null,
loading: true })` followed by `preloadedImages.clear()`. -/
def loadSubredditReset (st : SessionState) (subreddit : String) : SessionState :=
  { st with
    subreddit := subreddit
    slides := []
    currentIndex := 0
    after := none
    loading := true
    preloadedImages := [] }

/-- The keys of the store's state object (state.js `initialState`). -/
inductive StateKey where
  | slides | currentIndex | subreddit | after | loading
  | sort | time | showNSFW
  | uiVisible | firstLoad
  | autoplay | autoplayInterval | autoplaySpeed
  | isZoomed | zoomScale | panX | panY | isPanning | panStartX | panStartY
  | preloadedImages
  deriving Repr, DecidableEq

/-- `store.setState(updates)` (state.js): `state = { ...state, ...updates }`.
The state object is a total map from keys to (untyped JavaScript) values;
the updates object is a literal, i.e. a list of key/value bindings spread
left to right, later bindings winning. -/
def setState {V : Type} (state : StateKey → V) (updates : List (StateKey × V)) :
    StateKey → V :=
  updates.foldl (fun acc kv => fun k => if k = kv.1 then kv.2 else acc k) state

/-- The navigation-relevant store transitions of the application:
`navigate(direction)` (controls.js), the slide append of `loadMorePosts`
(controls.js), and the reset-then-populate of `loadSubreddit` (app.js),
restricted to the pair (currentIndex, slides.length). -/
inductive NavOp where
  | navigate (d : ℤ)
  | appendSlides (n : Nat)
  | loadFeed (n : Nat)

/-- One navigation-machine step on (currentIndex, slides.length). -/
def navMachineStep : Nat × Nat → NavOp → Nat × Nat
  | (c, len), .navigate d => (navigateIndex c len d, len)
  | (c, len), .appendSlides n => (c, len + n)
  | (_, _), .loadFeed n => (0, n)

/-- Run the navigation machine from the initial store state
(`currentIndex = 0`, no slides). -/
def navRun (ops : List NavOp) : Nat × Nat :=
  ops.foldl navMachineStep (0, 0)

/-- Lookup after a key-preserving map over the cache. -/
theorem cacheGet_map (f : Nat → CacheEntry → CacheEntry) (l : VideoCache) (k : Nat) :
    cacheGet (l.map (fun p => (p.1, f p.1 p.2))) k = (cacheGet l k).map (f k) := by
  induction l with
  | nil => rfl
  | cons p rest ih =>
      obtain ⟨a, e⟩ := p
      by_cases ha : a = k
      · subst ha
        simp [cacheGet]
      · simp [cacheGet, ha, ih]

/-- Lookup after filtering the cache by a predicate on keys. -/
theorem cacheGet_filter (q : Nat → Bool) (l : VideoCache) (k : Nat) :
    cacheGet (l.filter (fun p => q p.1)) k = if q k then cacheGet l k else none := by
  induction l with
  | nil => simp [cacheGet]
  | cons p rest ih =>
      obtain ⟨a, e⟩ := p
      by_cases ha : a = k
      · subst ha
        by_cases hq : q a
        · simp [List.filter, hq, cacheGet, ih]
        · simp [List.filter, hq, cacheGet, ih]
      · by_cases hq : q a
        · simp [List.filter, hq, cacheGet, ha, ih]
        · simp [List.filter, hq, cacheGet, ha, ih]

/-- `Map.set` makes the key map to the new value. -/
theorem cacheGet_cacheSet_self (c : VideoCache) (k : Nat) (v : CacheEntry) :
    cacheGet (cacheSet c k v) k = some v := by
  induction c with
  | nil => simp [cacheSet, cacheGet]
  | cons p rest ih =>
      obtain ⟨a, e⟩ := p
      by_cases ha : a = k
      · simp [cacheSet, ha, cacheGet]
      · simp [cacheSet, ha, cacheGet, ih]

/-- `Map.set` leaves every other key unchanged. -/
theorem cacheGet_cacheSet_ne (c : VideoCache) (k j : Nat) (v : CacheEntry)
    (h : j ≠ k) : cacheGet (cacheSet c k v) j = cacheGet c j := by
  induction c with
  | nil => simp [cacheSet, cacheGet, Ne.symm h]
  | cons p rest ih =>
      obtain ⟨a, e⟩ := p
      by_cases ha : a = k
      · subst ha
        simp [cacheSet, cacheGet, Ne.symm h]
      · simp [cacheSet, ha, cacheGet, ih]

/-- `Map.set` of an absent key grows the map by exactly one entry. -/
theorem cacheSet_length_fresh (c : VideoCache) (k : Nat) (v : CacheEntry)
    (h : cacheGet c k = none) : (cacheSet c k v).length = c.length + 1 := by
  induction c with
  | nil => simp [cacheSet]
  | cons p rest ih =>
      obtain ⟨a, e⟩ := p
      by_cases ha : a = k
      · simp [cacheGet, ha] at h
      · simp only [cacheGet, if_neg ha] at h
        simp [cacheSet, ha, ih h]

/-- `Map.delete` never grows the map. -/
theorem cacheDelete_length_le (c : VideoCache) (k : Nat) :
    (cacheDelete c k).length ≤ c.length := by
  induction c with
  | nil => simp [cacheDelete]
  | cons p rest ih =>
      by_cases h : p.1 = k
      · simp only [cacheDelete, if_pos h]
        exact Nat.le_succ_of_le (Nat.le_refl _)
      · simp only [cacheDelete, if_neg h, List.length_cons]
        omega

/-- Every single operation keeps the cache within capacity. -/
theorem stepOp_capacity (cfg : Config) (st : PreloadState) (op : PreloadOp)
    (h : cacheSize st.preloadedVideos ≤ cfg.MAX_CACHED_VIDEOS) :
    cacheSize (stepOp cfg st op).preloadedVideos ≤ cfg.MAX_CACHED_VIDEOS := by
  cases op with
  | preload i u now =>
      simp only [stepOp, preloadVideoElement]
      by_cases h1 : cacheHas st.preloadedVideos i
      · simp [h1, h]
      · by_cases h2 : cfg.MAX_CACHED_VIDEOS ≤ cacheSize st.preloadedVideos
        · simp [h1, h2, h]
        · by_cases h3 : st.preloadingPaused
          · simp [h1, h2, h3, h]
          · simp only [h1, h2, h3, Bool.false_eq_true, if_false, if_neg]
            have hget : cacheGet st.preloadedVideos i = none := by
              simpa [cacheHas, Option.isSome_iff_ne_none] using h1
            simp only [cacheSize] at h2 ⊢
            rw [cacheSet_length_fresh _ _ _ hget]
            omega
  | take i =>
      simp only [stepOp, getPreloadedVideo]
      cases hg : cacheGet st.preloadedVideos i with
      | some cached =>
          simp only [cacheSize]
          exact le_trans (cacheDelete_length_le _ _) h
      | none => exact h
  | cleanup c =>
      simp only [stepOp, cleanupOldPreloads, cacheSize]
      exact le_trans (List.length_filter_le _ _) h
  | nav len d =>
      simp only [stepOp, navigateStep]
      by_cases hb : ((st.currentIndex : ℤ) + d < 0 ∨ (len : ℤ) ≤ (st.currentIndex : ℤ) + d)
      · simp [hb, h]
      · simp only [hb, if_false, cleanupOldPreloads, cacheSize]
        exact le_trans (List.length_filter_le _ _) h
  | videoError i =>
      simp only [stepOp, cacheSize]
      exact le_trans (cacheDelete_length_le _ _) h
  | check hq =>
      simp only [stepOp, checkBuffer]
      by_cases hb1 : (hq < cfg.MIN_BUFFER_SECONDS ∧ st.preloadingPaused = false)
      · rw [if_pos hb1]
        simp only [pauseAllPreloads, hb1.2, Bool.false_eq_true, if_false]
        simpa [cacheSize] using h
      · rw [if_neg hb1]
        by_cases hb2 : (cfg.HEALTHY_BUFFER_SECONDS < hq ∧ st.preloadingPaused = true)
        · rw [if_pos hb2]
          simp only [resumePreloads, hb2.2, if_true]
          simpa [cacheSize] using h
        · simp [hb2, h]

/-- Running any suffix of operations from a within-capacity state stays
within capacity. -/
theorem foldl_capacity (cfg : Config) (ops : List PreloadOp) :
    ∀ st : PreloadState, cacheSize st.preloadedVideos ≤ cfg.MAX_CACHED_VIDEOS →
      cacheSize (ops.foldl (stepOp cfg) st).preloadedVideos ≤ cfg.MAX_CACHED_VIDEOS := by
  induction ops with
  | nil => intro st h; simpa using h
  | cons op rest ih =>
      intro st h
      simpa using ih (stepOp cfg st op) (stepOp_capacity cfg st op h)

/-- C1: for every sequence of operations on the preload element cache
(`preloadVideoElement`, `getPreloadedVideo`, `cleanupOldPreloads`,
navigation, the per-element error listener, and buffer-monitor ticks),
the number of entries in the `preloadedVideos` map never exceeds
`CONFIG.preloading.MAX_CACHED_VIDEOS`. -/
theorem preload_cache_never_exceeds_capacity (cfg : Config) (ops : List PreloadOp) :
    cacheSize (runOps cfg ops).preloadedVideos ≤ cfg.MAX_CACHED_VIDEOS := by
  exact foldl_capacity cfg ops initialPreloadState (Nat.zero_le _)

/-- C2: `preloadVideoElement(slideData, slideIndex, videoUrl)` is a no-op
(adds no entry and creates no element) whenever an entry already exists at
`slideIndex`, or the cache size is at or above
`CONFIG.preloading.MAX_CACHED_VIDEOS`, or `preloadingPaused` is set;
otherwise it creates an element and inserts exactly one new entry keyed
by `slideIndex`, leaving every other key, the pause flag and the current
index unchanged. -/
theorem preloadVideoElement_admission (cfg : Config) (st : PreloadState)
    (i : Nat) (u : String) (now : Nat) :
    ((cacheHas st.preloadedVideos i = true
        ∨ cfg.MAX_CACHED_VIDEOS ≤ cacheSize st.preloadedVideos
        ∨ st.preloadingPaused = true) →
      preloadVideoElement cfg st i u now = (st, false))
    ∧ (¬(cacheHas st.preloadedVideos i = true
        ∨ cfg.MAX_CACHED_VIDEOS ≤ cacheSize st.preloadedVideos
        ∨ st.preloadingPaused = true) →
      (preloadVideoElement cfg st i u now).2 = true
      ∧ cacheGet (preloadVideoElement cfg st i u now).1.preloadedVideos i
          = some (mkPreloadEntry st i u now)
      ∧ (∀ k, k ≠ i →
          cacheGet (preloadVideoElement cfg st i u now).1.preloadedVideos k
            = cacheGet st.preloadedVideos k)
      ∧ cacheSize (preloadVideoElement cfg st i u now).1.preloadedVideos
          = cacheSize st.preloadedVideos + 1
      ∧ (preloadVideoElement cfg st i u now).1.preloadingPaused = st.preloadingPaused
      ∧ (preloadVideoElement cfg st i u now).1.currentIndex = st.currentIndex) := by
  constructor
  · intro hguard
    rcases hguard with h1 | h2 | h3
    · simp [preloadVideoElement, h1]
    · by_cases h1 : cacheHas st.preloadedVideos i
      · simp [preloadVideoElement, h1]
      · simp [preloadVideoElement, h1, h2]
    · by_cases h1 : cacheHas st.preloadedVideos i
      · simp [preloadVideoElement, h1]
      · by_cases h2 : cfg.MAX_CACHED_VIDEOS ≤ cacheSize st.preloadedVideos
        · simp [preloadVideoElement, h1, h2]
        · simp [preloadVideoElement, h1, h2, h3]
  · intro hguard
    push_neg at hguard
    obtain ⟨h1, h2, h3⟩ := hguard
    have hget : cacheGet st.preloadedVideos i = none := by
      simpa [cacheHas, Option.isSome_iff_ne_none] using h1
    have hne2 : ¬ cfg.MAX_CACHED_VIDEOS ≤ cacheSize st.preloadedVideos := by
      simpa using h2
    have hres : preloadVideoElement cfg st i u now
        = ({ st with preloadedVideos :=
              cacheSet st.preloadedVideos i (mkPreloadEntry st i u now) }, true) := by
      simp [preloadVideoElement, h1, hne2, h3]
    rw [hres]
    refine ⟨rfl, ?_, ?_, ?_, rfl, rfl⟩
    · exact cacheGet_cacheSet_self _ _ _
    · intro k hk
      exact cacheGet_cacheSet_ne _ _ _ _ hk
    · simpa [cacheSize] using cacheSet_length_fresh _ _ _ hget

/-- A concrete configuration used to instantiate witnesses (the real
`config.js` is not among the sources; any values work for the theorems,
which are quantified over the configuration). -/
def cfg0 : Config :=
  { MAX_CACHED_VIDEOS := 3
    CLEANUP_THRESHOLD := 2
    MIN_BUFFER_SECONDS := 4
    HEALTHY_BUFFER_SECONDS := 8
    VIDEO_PRELOAD_COUNT := 2
    URL_PRELOAD_COUNT := 5
    proxyEnabled := false }

/-- Witness for C2: in the empty unpaused state the element is created,
and in a paused state the call is a no-op. -/
theorem preloadVideoElement_admission_witness :
    (preloadVideoElement cfg0 initialPreloadState 1 "u" 0).2 = true
    ∧ preloadVideoElement cfg0
        { preloadedVideos := [], preloadingPaused := true, currentIndex := 0 } 1 "u" 0
      = ({ preloadedVideos := [], preloadingPaused := true, currentIndex := 0 }, false) := by
  constructor
  · exact ((preloadVideoElement_admission cfg0 initialPreloadState 1 "u" 0).2
      (by decide)).1
  · exact (preloadVideoElement_admission cfg0
      { preloadedVideos := [], preloadingPaused := true, currentIndex := 0 } 1 "u" 0).1
      (Or.inr (Or.inr rfl))

/-- C3: once the monitor is Starved (`preloadingPaused = true`), a
buffer-check tick returns to Healthy if and only if the buffered-ahead
duration strictly exceeds `HEALTHY_BUFFER_SECONDS`; and for any
buffered-ahead value between `MIN_BUFFER_SECONDS` and
`HEALTHY_BUFFER_SECONDS` a tick changes the paused flag in neither
direction. -/
theorem checkBuffer_hysteresis (cfg : Config) (st : PreloadState) (health : ℚ) :
    (st.preloadingPaused = true →
      ((checkBuffer cfg st health).preloadingPaused = false
        ↔ cfg.HEALTHY_BUFFER_SECONDS < health))
    ∧ (cfg.MIN_BUFFER_SECONDS ≤ health → health ≤ cfg.HEALTHY_BUFFER_SECONDS →
        (checkBuffer cfg st health).preloadingPaused = st.preloadingPaused) := by
  constructor
  · intro hp
    have hb1 : ¬(health < cfg.MIN_BUFFER_SECONDS ∧ st.preloadingPaused = false) := by
      simp [hp]
    constructor
    · intro hres
      by_contra hnot
      have hb2 : ¬(cfg.HEALTHY_BUFFER_SECONDS < health ∧ st.preloadingPaused = true) := by
        simp [hnot]
      rw [checkBuffer, if_neg hb1, if_neg hb2] at hres
      rw [hres] at hp
      exact Bool.false_ne_true hp
    · intro hh
      rw [checkBuffer, if_neg hb1, if_pos ⟨hh, hp⟩, resumePreloads, if_pos hp]
  · intro hmin hmax
    have hb1 : ¬(health < cfg.MIN_BUFFER_SECONDS ∧ st.preloadingPaused = false) := by
      intro hc
      exact absurd hmin (not_le.mpr hc.1)
    have hb2 : ¬(cfg.HEALTHY_BUFFER_SECONDS < health ∧ st.preloadingPaused = true) := by
      intro hc
      exact absurd hmax (not_le.mpr hc.1)
    rw [checkBuffer, if_neg hb1, if_neg hb2]

/-- Witness for C3: with low-water mark 4 and high-water mark 8, a
starved state recovers at a computed buffered-ahead of 9 seconds
(one buffered range [0, 9], playback at 0) and is unchanged at 5. -/
theorem checkBuffer_hysteresis_witness :
    (checkBuffer cfg0
        { preloadedVideos := [], preloadingPaused := true, currentIndex := 0 }
        (getBufferHealth [((0 : ℚ), (9 : ℚ))] 0)).preloadingPaused = false
    ∧ (checkBuffer cfg0
        { preloadedVideos := [], preloadingPaused := true, currentIndex := 0 }
        (5 : ℚ)).preloadingPaused = true := by
  constructor
  · exact ((checkBuffer_hysteresis cfg0
      { preloadedVideos := [], preloadingPaused := true, currentIndex := 0 }
      (getBufferHealth [((0 : ℚ), (9 : ℚ))] 0)).1 rfl).mpr (by norm_num [getBufferHealth, cfg0])
  · exact (checkBuffer_hysteresis cfg0
      { preloadedVideos := [], preloadingPaused := true, currentIndex := 0 }
      (5 : ℚ)).2 (by norm_num [cfg0]) (by norm_num [cfg0])

/-- C4: `cleanupOldPreloads(currentIndex)` removes exactly the cached
entries at positions `p` with `p < currentIndex - CLEANUP_THRESHOLD`
(comparison over ℤ, as in JavaScript), keeps every other entry with its
value unchanged, and in particular leaves every entry at or ahead of the
current position untouched. -/
theorem cleanupOldPreloads_evicts_exactly_far_behind (cfg : Config)
    (st : PreloadState) (c : Nat) :
    (∀ p : Nat, (p : ℤ) < (c : ℤ) - (cfg.CLEANUP_THRESHOLD : ℤ) →
      cacheGet (cleanupOldPreloads cfg st c).preloadedVideos p = none)
    ∧ (∀ p : Nat, ¬((p : ℤ) < (c : ℤ) - (cfg.CLEANUP_THRESHOLD : ℤ)) →
      cacheGet (cleanupOldPreloads cfg st c).preloadedVideos p
        = cacheGet st.preloadedVideos p)
    ∧ (∀ p : Nat, c ≤ p →
      cacheGet (cleanupOldPreloads cfg st c).preloadedVideos p
        = cacheGet st.preloadedVideos p)
    ∧ (cleanupOldPreloads cfg st c).preloadingPaused = st.preloadingPaused
    ∧ (cleanupOldPreloads cfg st c).currentIndex = st.currentIndex := by
  have hmain : ∀ p : Nat,
      cacheGet (cleanupOldPreloads cfg st c).preloadedVideos p
        = if !decide ((p : ℤ) < (c : ℤ) - (cfg.CLEANUP_THRESHOLD : ℤ)) then
            cacheGet st.preloadedVideos p
          else none := by
    intro p
    exact cacheGet_filter
      (fun k => !decide ((k : ℤ) < (c : ℤ) - (cfg.CLEANUP_THRESHOLD : ℤ)))
      st.preloadedVideos p
  refine ⟨?_, ?_, ?_, rfl, rfl⟩
  · intro p hp
    rw [hmain p]
    simp [hp]
  · intro p hp
    rw [hmain p]
    simp [hp]
  · intro p hp
    rw [hmain p]
    have : ¬((p : ℤ) < (c : ℤ) - (cfg.CLEANUP_THRESHOLD : ℤ)) := by
      omega
    simp [this]

/-- Witness for C4: with threshold 2 and current position 5, the entry at
position 1 is evicted while the entries at positions 3 and 6 survive. -/
theorem cleanupOldPreloads_evicts_exactly_far_behind_witness :
    cacheGet (cleanupOldPreloads cfg0
      { preloadedVideos :=
          [(1, ⟨"a", true, 0, 0⟩), (3, ⟨"b", true, 0, 0⟩), (6, ⟨"c", true, 0, 0⟩)],
        preloadingPaused := false, currentIndex := 5 } 5).preloadedVideos 1 = none
    ∧ cacheGet (cleanupOldPreloads cfg0
      { preloadedVideos :=
          [(1, ⟨"a", true, 0, 0⟩), (3, ⟨"b", true, 0, 0⟩), (6, ⟨"c", true, 0, 0⟩)],
        preloadingPaused := false, currentIndex := 5 } 5).preloadedVideos 3
      = some ⟨"b", true, 0, 0⟩
    ∧ cacheGet (cleanupOldPreloads cfg0
      { preloadedVideos :=
          [(1, ⟨"a", true, 0, 0⟩), (3, ⟨"b", true, 0, 0⟩), (6, ⟨"c", true, 0, 0⟩)],
        preloadingPaused := false, currentIndex := 5 } 5).preloadedVideos 6
      = some ⟨"c", true, 0, 0⟩ := by
  refine ⟨?_, ?_, ?_⟩
  · exact (cleanupOldPreloads_evicts_exactly_far_behind cfg0
      { preloadedVideos :=
          [(1, ⟨"a", true, 0, 0⟩), (3, ⟨"b", true, 0, 0⟩), (6, ⟨"c", true, 0, 0⟩)],
        preloadingPaused := false, currentIndex := 5 } 5).1 1 (by decide)
  · rw [(cleanupOldPreloads_evicts_exactly_far_behind cfg0
      { preloadedVideos :=
          [(1, ⟨"a", true, 0, 0⟩), (3, ⟨"b", true, 0, 0⟩), (6, ⟨"c", true, 0, 0⟩)],
        preloadingPaused := false, currentIndex := 5 } 5).2.1 3 (by decide)]
    decide
  · rw [(cleanupOldPreloads_evicts_exactly_far_behind cfg0
      { preloadedVideos :=
          [(1, ⟨"a", true, 0, 0⟩), (3, ⟨"b", true, 0, 0⟩), (6, ⟨"c", true, 0, 0⟩)],
        preloadingPaused := false, currentIndex := 5 } 5).2.2.1 6 (by decide)]
    decide

/-- C8: on the transition to Starved, `pauseAllPreloads` pauses every
cached element (the per-entry effect is `pauseEntry`, which ends with
`paused = true`) and raises the flag; on the transition to Healthy,
`resumePreloads` clears the flag, nudges (play-then-pause) only the entry
at `currentIndex + 1` if it is present, and leaves every other cached
entry completely unchanged — no cached handle ends up resumed. -/
theorem pause_resume_policy (st : PreloadState) :
    (st.preloadingPaused = false →
      (pauseAllPreloads st).preloadingPaused = true
      ∧ (∀ k, cacheGet (pauseAllPreloads st).preloadedVideos k
          = (cacheGet st.preloadedVideos k).map pauseEntry)
      ∧ (∀ e : CacheEntry, (pauseEntry e).paused = true))
    ∧ (st.preloadingPaused = true →
      (resumePreloads st).preloadingPaused = false
      ∧ cacheGet (resumePreloads st).preloadedVideos (st.currentIndex + 1)
          = (cacheGet st.preloadedVideos (st.currentIndex + 1)).map nudgeEntry
      ∧ (∀ k, k ≠ st.currentIndex + 1 →
          cacheGet (resumePreloads st).preloadedVideos k
            = cacheGet st.preloadedVideos k)
      ∧ (∀ e : CacheEntry, (nudgeEntry e).paused = true)) := by
  constructor
  · intro hp
    rw [pauseAllPreloads, hp]
    refine ⟨rfl, ?_, ?_⟩
    · intro k
      exact cacheGet_map (fun _ e => pauseEntry e) st.preloadedVideos k
    · intro e
      by_cases he : e.paused
      · simp [pauseEntry, he]
      · simp [pauseEntry, he]
  · intro hp
    rw [resumePreloads, hp, if_pos rfl]
    refine ⟨rfl, ?_, ?_, ?_⟩
    · rw [cacheGet_map (fun k e => if k = st.currentIndex + 1 then nudgeEntry e else e)]
      cases cacheGet st.preloadedVideos (st.currentIndex + 1) with
      | none => rfl
      | some e => simp
    · intro k hk
      rw [cacheGet_map (fun k e => if k = st.currentIndex + 1 then nudgeEntry e else e)]
      cases cacheGet st.preloadedVideos k with
      | none => rfl
      | some e => simp [hk]
    · intro e
      rfl

/-- Witness for C8: with entries at positions 4 and 6 and current
position 3, pausing pauses both; resuming from the paused state nudges
only position 4 and leaves position 6 untouched. -/
theorem pause_resume_policy_witness :
    ((pauseAllPreloads
        { preloadedVideos := [(4, ⟨"a", false, 0, 0⟩), (6, ⟨"b", false, 0, 0⟩)],
          preloadingPaused := false, currentIndex := 3 }).preloadingPaused = true)
    ∧ cacheGet (resumePreloads
        { preloadedVideos := [(4, ⟨"a", true, 0, 0⟩), (6, ⟨"b", true, 0, 0⟩)],
          preloadingPaused := true, currentIndex := 3 }).preloadedVideos 4
        = some ⟨"a", true, 1, 0⟩
    ∧ cacheGet (resumePreloads
        { preloadedVideos := [(4, ⟨"a", true, 0, 0⟩), (6, ⟨"b", true, 0, 0⟩)],
          preloadingPaused := true, currentIndex := 3 }).preloadedVideos 6
        = some ⟨"b", true, 0, 0⟩ := by
  refine ⟨?_, ?_, ?_⟩
  · exact ((pause_resume_policy
      { preloadedVideos := [(4, ⟨"a", false, 0, 0⟩), (6, ⟨"b", false, 0, 0⟩)],
        preloadingPaused := false, currentIndex := 3 }).1 rfl).1
  · rw [((pause_resume_policy
      { preloadedVideos := [(4, ⟨"a", true, 0, 0⟩), (6, ⟨"b", true, 0, 0⟩)],
        preloadingPaused := true, currentIndex := 3 }).2 rfl).2.1]
    decide
  · rw [((pause_resume_policy
      { preloadedVideos := [(4, ⟨"a", true, 0, 0⟩), (6, ⟨"b", true, 0, 0⟩)],
        preloadingPaused := true, currentIndex := 3 }).2 rfl).2.2.1 6 (by decide)]
    decide

/-- The navigation-machine invariant: the position is 0 or a valid index. -/
def navInvariant (s : Nat × Nat) : Prop := s.1 = 0 ∨ s.1 < s.2

/-- Each navigation-machine step preserves the invariant. -/
theorem navMachineStep_invariant (s : Nat × Nat) (op : NavOp)
    (h : navInvariant s) : navInvariant (navMachineStep s op) := by
  obtain ⟨c, len⟩ := s
  cases op with
  | navigate d =>
      simp only [navMachineStep, navInvariant, navigateIndex]
      by_cases hb : ((c : ℤ) + d < 0 ∨ (len : ℤ) ≤ (c : ℤ) + d)
      · rw [if_pos hb]
        exact h
      · rw [if_neg hb]
        push_neg at hb
        right
        omega
  | appendSlides n =>
      simp only [navMachineStep, navInvariant] at h ⊢
      omega
  | loadFeed n =>
      simp [navMachineStep, navInvariant]

/-- The invariant holds after any run of the navigation machine. -/
theorem navRun_invariant (ops : List NavOp) : navInvariant (navRun ops) := by
  have hgen : ∀ s : Nat × Nat, navInvariant s →
      navInvariant (ops.foldl navMachineStep s) := by
    induction ops with
    | nil => intro s h; simpa using h
    | cons op rest ih =>
        intro s h
        simpa using ih (navMachineStep s op) (navMachineStep_invariant s op h)
  exact hgen (0, 0) (Or.inl rfl)

/-- C9: `navigate(direction)` is a complete no-op when
`currentIndex + direction` falls below 0 or at or beyond `slides.length`,
and otherwise sets `currentIndex` to `currentIndex + direction`; and over
every sequence of navigations, slide appends and feed loads, the current
position is a valid index whenever the slide sequence is non-empty. -/
theorem navigate_keeps_index_valid (cfg : Config) (st : PreloadState)
    (len : Nat) (d : ℤ) (ops : List NavOp) :
    (((st.currentIndex : ℤ) + d < 0 ∨ (len : ℤ) ≤ (st.currentIndex : ℤ) + d) →
      navigateStep cfg st len d = st)
    ∧ (¬((st.currentIndex : ℤ) + d < 0 ∨ (len : ℤ) ≤ (st.currentIndex : ℤ) + d) →
      ((navigateStep cfg st len d).currentIndex : ℤ) = (st.currentIndex : ℤ) + d)
    ∧ (st.currentIndex < len → (navigateStep cfg st len d).currentIndex < len)
    ∧ (0 < (navRun ops).2 → (navRun ops).1 < (navRun ops).2) := by
  refine ⟨?_, ?_, ?_, ?_⟩
  · intro hb
    rw [navigateStep, if_pos hb]
  · intro hb
    rw [navigateStep, if_neg hb]
    push_neg at hb
    simp only [cleanupOldPreloads]
    omega
  · intro hc
    rw [navigateStep]
    by_cases hb : ((st.currentIndex : ℤ) + d < 0 ∨ (len : ℤ) ≤ (st.currentIndex : ℤ) + d)
    · rw [if_pos hb]
      exact hc
    · rw [if_neg hb]
      push_neg at hb
      simp only [cleanupOldPreloads]
      omega
  · intro hlen
    rcases navRun_invariant ops with h0 | hv
    · omega
    · exact hv

/-- Witness for C9: navigating forward from position 0 of a 2-slide feed
moves to position 1; navigating backward from position 0 is a no-op; and
a concrete run (load a 3-slide feed, navigate forward twice, once past
the end) lands on a valid index. -/
theorem navigate_keeps_index_valid_witness :
    ((navigateStep cfg0 initialPreloadState 2 1).currentIndex : ℤ) = 0 + 1
    ∧ navigateStep cfg0 initialPreloadState 2 (-1) = initialPreloadState
    ∧ (navRun [NavOp.loadFeed 3, NavOp.navigate 1, NavOp.navigate 1,
        NavOp.navigate 5]).1
      < (navRun [NavOp.loadFeed 3, NavOp.navigate 1, NavOp.navigate 1,
        NavOp.navigate 5]).2 := by
  refine ⟨?_, ?_, ?_⟩
  · exact (navigate_keeps_index_valid cfg0 initialPreloadState 2 1 []).2.1 (by decide)
  · exact (navigate_keeps_index_valid cfg0 initialPreloadState 2 (-1) []).1 (by decide)
  · exact (navigate_keeps_index_valid cfg0 initialPreloadState 2 1
      [NavOp.loadFeed 3, NavOp.navigate 1, NavOp.navigate 1,
        NavOp.navigate 5]).2.2.2 (by decide)

/-- Keys absent from the updates literal are untouched by the spread. -/
theorem setState_not_mem {V : Type} (state : StateKey → V)
    (updates : List (StateKey × V)) (k : StateKey)
    (h : k ∉ updates.map Prod.fst) : setState state updates k = state k := by
  induction updates generalizing state with
  | nil => rfl
  | cons kv rest ih =>
      simp only [List.map_cons, List.mem_cons] at h
      push_neg at h
      simp only [setState, List.foldl] at ih ⊢
      rw [ih _ h.2]
      simp [h.1]

/-- A key bound in the updates literal ends up at its bound value
(bindings have distinct keys, as in every `setState` call site). -/
theorem setState_mem {V : Type} (state : StateKey → V)
    (updates : List (StateKey × V)) (k : StateKey) (v : V)
    (hmem : (k, v) ∈ updates) (hnodup : (updates.map Prod.fst).Nodup) :
    setState state updates k = v := by
  induction updates generalizing state with
  | nil => exact absurd hmem (List.not_mem_nil _)
  | cons kv rest ih =>
      simp only [List.map_cons, List.nodup_cons] at hnodup
      rcases List.mem_cons.mp hmem with hhead | htail
      · subst hhead
        have hnot : k ∉ rest.map Prod.fst := hnodup.1
        simp only [setState, List.foldl]
        have hrest := setState_not_mem
          (fun j => if j = (k, v).1 then (k, v).2 else state j) rest k hnot
        simp only [setState] at hrest
        rw [hrest]
        simp
      · simp only [setState, List.foldl] at ih ⊢
        exact ih _ htail hnodup.2

/-- C10: `store.setState(updates)` leaves every state key not bound in
the updates object unchanged and sets every bound key to its bound value
(the frame property of the spread `state = { ...state, ...updates }`). -/
theorem setState_frame {V : Type} (state : StateKey → V)
    (updates : List (StateKey × V)) (k : StateKey) :
    (k ∉ updates.map Prod.fst → setState state updates k = state k)
    ∧ (∀ v : V, (k, v) ∈ updates → (updates.map Prod.fst).Nodup →
        setState state updates k = v) := by
  constructor
  · intro h
    exact setState_not_mem state updates k h
  · intro v hmem hnodup
    exact setState_mem state updates k v hmem hnodup

/-- Witness for C10: the `navigate` update
`{ currentIndex: 5, preloadingPaused: false }`, here restricted to the
keys of `initialState`, sets `currentIndex` and leaves `panX` alone. -/
theorem setState_frame_witness :
    setState (fun _ => (0 : Nat)) [(StateKey.currentIndex, 5)] StateKey.currentIndex = 5
    ∧ setState (fun _ => (0 : Nat)) [(StateKey.currentIndex, 5)] StateKey.panX = 0 := by
  constructor
  · exact (setState_frame (fun _ => (0 : Nat)) [(StateKey.currentIndex, 5)]
      StateKey.currentIndex).2 5 (by decide) (by decide)
  · exact (setState_frame (fun _ => (0 : Nat)) [(StateKey.currentIndex, 5)]
      StateKey.panX).1 (by decide)

/-- A video slide with an unresolved external id, as produced by
`extractExternalVideoMedia` (media.js). -/
def slideAbc : Slide :=
  { type := "video", url := none, needsResolve := true, externalVideoId := some "abc" }

/-- Counterexample to C5 as stated: after the orchestrator
(`preloadExternalVideoUrls`) has put id "abc" in flight, the renderer
path (`createSlideElement`) still issues a second concurrent resolution
network call for "abc" — it checks only the URL cache, not the in-flight
set — leaving two outstanding calls for the same id. -/
theorem renderer_duplicate_resolution_counterexample :
    "abc" ∈ (preloadExternalVideoUrls [slideAbc] 0 1
        initialResolveState).preloadingInProgress
    ∧ (preloadExternalVideoUrls [slideAbc] 0 1
        initialResolveState).activeCalls.count "abc" = 1
    ∧ (rendererResolveAttempt
        (preloadExternalVideoUrls [slideAbc] 0 1 initialResolveState) "abc").2.2 = true
    ∧ (rendererResolveAttempt
        (preloadExternalVideoUrls [slideAbc] 0 1 initialResolveState)
        "abc").1.activeCalls.count "abc" = 2 := by
  refine ⟨by decide, by decide, by decide, by decide⟩

/-- If an id is in flight, one orchestrator attempt neither starts a
second call for it nor removes it from the in-flight set. -/
theorem orchAttempt_no_duplicate (rs : ResolveState) (slide : Slide) (id : String)
    (h : id ∈ rs.preloadingInProgress) :
    id ∈ (orchAttempt rs slide).preloadingInProgress
    ∧ (orchAttempt rs slide).activeCalls.count id = rs.activeCalls.count id := by
  cases hnr : slide.needsResolve with
  | false => simp [orchAttempt, hnr, h]
  | true =>
      cases hid : slide.externalVideoId with
      | none => simp [orchAttempt, hnr, hid, h]
      | some videoId =>
          by_cases hguard : (urlCacheGet rs.preloadedVideoUrls videoId).isSome
              ∨ videoId ∈ rs.preloadingInProgress
          · simp [orchAttempt, hnr, hid, hguard, h]
          · have hvid : videoId ∉ rs.preloadingInProgress :=
              fun hc => hguard (Or.inr hc)
            have hne : id ≠ videoId := fun he => hvid (he ▸ h)
            have hres : orchAttempt rs slide
                = { rs with
                    preloadingInProgress := setAdd rs.preloadingInProgress videoId,
                    activeCalls := videoId :: rs.activeCalls } := by
              simp [orchAttempt, hnr, hid, hguard]
            rw [hres]
            constructor
            · simp only [setAdd, if_neg hvid]
              exact List.mem_cons_of_mem _ h
            · exact List.count_cons_of_ne hne _

/-- The same, threaded through the whole window loop of
`preloadExternalVideoUrls`. -/
theorem preloadLoop_no_duplicate (slides : List Slide) (startIndex : Nat)
    (idxs : List Nat) :
    ∀ rs : ResolveState, ∀ id : String, id ∈ rs.preloadingInProgress →
      id ∈ (idxs.foldl
          (fun acc i =>
            match slides[startIndex + i]? with
            | none => acc
            | some slide => orchAttempt acc slide) rs).preloadingInProgress
      ∧ (idxs.foldl
          (fun acc i =>
            match slides[startIndex + i]? with
            | none => acc
            | some slide => orchAttempt acc slide) rs).activeCalls.count id
        = rs.activeCalls.count id := by
  induction idxs with
  | nil => intro rs id h; exact ⟨h, rfl⟩
  | cons i rest ih =>
      intro rs id h
      simp only [List.foldl]
      cases hslide : slides[startIndex + i]? with
      | none =>
          simpa [hslide] using ih rs id h
      | some slide =>
          obtain ⟨h1, h2⟩ := orchAttempt_no_duplicate rs slide id h
          obtain ⟨h3, h4⟩ := ih (orchAttempt rs slide) id h1
          refine ⟨by simpa [hslide] using h3, ?_⟩
          simp only [hslide]
          rw [h4, h2]

/-- C5 amended: on the orchestrator path (`preloadExternalVideoUrls`),
in-flight membership is mutually exclusive with issuing a second
concurrent resolution call for the same id — an id already in
`preloadingInProgress` gets no new network call and stays in the set.
(The renderer path does not share this guarantee: it consults only the
URL cache, see the counterexample.) -/
theorem orchestrator_no_duplicate_start (slides : List Slide)
    (startIndex count : Nat) (rs : ResolveState) (id : String)
    (h : id ∈ rs.preloadingInProgress) :
    id ∈ (preloadExternalVideoUrls slides startIndex count rs).preloadingInProgress
    ∧ (preloadExternalVideoUrls slides startIndex count rs).activeCalls.count id
      = rs.activeCalls.count id := by
  unfold preloadExternalVideoUrls
  exact preloadLoop_no_duplicate slides startIndex (List.range count) rs id h

/-- Witness for the amended C5: with "abc" already in flight, running the
orchestrator over a window containing the "abc" slide adds no call. -/
theorem orchestrator_no_duplicate_start_witness :
    "abc" ∈ (preloadExternalVideoUrls [slideAbc] 0 1
        ⟨[], ["abc"], ["abc"]⟩).preloadingInProgress
    ∧ (preloadExternalVideoUrls [slideAbc] 0 1
        ⟨[], ["abc"], ["abc"]⟩).activeCalls.count "abc"
      = (ResolveState.mk [] ["abc"] ["abc"]).activeCalls.count "abc" :=
  orchestrator_no_duplicate_start [slideAbc] 0 1 ⟨[], ["abc"], ["abc"]⟩ "abc"
    (by decide)

/-- Counterexample to C6 as stated: even when id "abc" already has a
successfully resolved entry in `preloadedVideoUrls` (readable
synchronously via `getPreloadedVideoUrl`), calling
`fetchExternalVideoUrl` issues a network call — the function takes no
cache argument and consults nothing — and returns the network's answer,
not the cached URL. -/
theorem fetchExternalVideoUrl_ignores_cache_counterexample :
    getPreloadedVideoUrl ⟨[("abc", "cachedUrl")], [], []⟩ "abc" = some "cachedUrl"
    ∧ (fetchExternalVideoUrl cfg0 (fun u => u) ⟨some "tok", 1000⟩ 0
        ⟨some "tok", fun _ => some "netUrl"⟩ "abc").2.2 = 1
    ∧ (fetchExternalVideoUrl cfg0 (fun u => u) ⟨some "tok", 1000⟩ 0
        ⟨some "tok", fun _ => some "netUrl"⟩ "abc").2.1 = some "netUrl" := by
  refine ⟨rfl, rfl, rfl⟩

/-- C6 amended: the resolved-URL cache is consulted by the callers, not
by `fetchExternalVideoUrl` itself: for an already-resolved id the
renderer path returns the cached URL synchronously and issues no network
call, and the orchestrator path skips the slide entirely. -/
theorem resolve_cache_hit_no_network (rs : ResolveState) (id url : String)
    (slide : Slide) (h : getPreloadedVideoUrl rs id = some url) :
    rendererResolveAttempt rs id = (rs, some url, false)
    ∧ (slide.externalVideoId = some id → orchAttempt rs slide = rs) := by
  constructor
  · simp [rendererResolveAttempt, h]
  · intro hid
    cases hnr : slide.needsResolve with
    | false => simp [orchAttempt, hnr]
    | true =>
        have hsome : (urlCacheGet rs.preloadedVideoUrls id).isSome = true := by
          simp [getPreloadedVideoUrl] at h
          simp [h]
        simp [orchAttempt, hnr, hid, hsome]

/-- Witness for the amended C6: with "abc" resolved to "u", the renderer
uses the cached URL without a network call and the orchestrator skips. -/
theorem resolve_cache_hit_no_network_witness :
    rendererResolveAttempt ⟨[("abc", "u")], [], []⟩ "abc"
      = (⟨[("abc", "u")], [], []⟩, some "u", false)
    ∧ orchAttempt ⟨[("abc", "u")], [], []⟩ slideAbc = ⟨[("abc", "u")], [], []⟩ :=
  ⟨(resolve_cache_hit_no_network ⟨[("abc", "u")], [], []⟩ "abc" "u" slideAbc rfl).1,
   (resolve_cache_hit_no_network ⟨[("abc", "u")], [], []⟩ "abc" "u" slideAbc rfl).2 rfl⟩

/-- C7, evaluated at the failing input: the session reset run by
`loadSubreddit` (and `stateHelpers.resetForNewLoad`) clears only the
image preload set and the feed fields; the URL resolution cache, the
preload element cache (handles not destroyed) and the `preloadingPaused`
flag all survive into the new feed session, contradicting the claim that
all three caches are cleared and the flag reset. -/
theorem loadSubreddit_reset_keeps_video_caches :
    loadSubredditReset
      { subreddit := "old"
        slides := [slideAbc]
        currentIndex := 3
        after := some "t3_x"
        loading := false
        preloadedImages := ["img1"]
        preloadedVideoUrls := [("abc", "u")]
        preloadingInProgress := ["xyz"]
        preloadedVideos := [(3, ⟨"u", true, 0, 0⟩)]
        preloadingPaused := true } "new"
    = { subreddit := "new"
        slides := []
        currentIndex := 0
        after := none
        loading := true
        preloadedImages := []
        preloadedVideoUrls := [("abc", "u")]
        preloadingInProgress := ["xyz"]
        preloadedVideos := [(3, ⟨"u", true, 0, 0⟩)]
        preloadingPaused := true }
    ∧ resetForNewLoad
      { subreddit := "old"
        slides := [slideAbc]
        currentIndex := 3
        after := some "t3_x"
        loading := false
        preloadedImages := ["img1"]
        preloadedVideoUrls := [("abc", "u")]
        preloadingInProgress := ["xyz"]
        preloadedVideos := [(3, ⟨"u", true, 0, 0⟩)]
        preloadingPaused := true }
    = { subreddit := "old"
        slides := []
        currentIndex := 0
        after := none
        loading := true
        preloadedImages := []
        preloadedVideoUrls := [("abc", "u")]
        preloadingInProgress := ["xyz"]
        preloadedVideos := [(3, ⟨"u", true, 0, 0⟩)]
        preloadingPaused := true } := by
  refine ⟨rfl, rfl⟩
